import Mathlib

/-!
Shallow embedding of the AI-response cache, the retry wrapper and the
extraction orchestrator of the AI workout app (`src/services/geminiService.ts`,
the `aiCache` service, and the video utility module).  Text the code inspects
character by character is modelled as `List Char`; timestamps are modelled as
natural numbers counting milliseconds since the epoch (the source stores ISO
strings and compares millisecond differences); the host platform's
`JSON.parse` is a parameter of the orchestrator.
-/

/-- JSON values: the shape of `JSON.parse` results and of cached analysis
results.  Numbers are modelled as rationals; the embedded code never computes
with them, it only performs `typeof x` checks. -/
inductive Json : Type where
  | null : Json
  | bool : Bool → Json
  | num : Rat → Json
  | str : String → Json
  | arr : List Json → Json
  | obj : List (String × Json) → Json

/-- The backtick character, written via its code point. -/
def btick : Char := Char.ofNat 96

/-- The character class of the JavaScript `\s` regex escape and of
`String.prototype.trim`, restricted to ASCII (the only whitespace that occurs
in the positions the code inspects). -/
def jsWhitespaceB (c : Char) : Bool :=
  c == ' ' || c == '\t' || c == '\n' || c == '\r' || c == '\x0b' || c == '\x0c'

/-- Left half of `String.prototype.trim`. -/
def trimL (s : List Char) : List Char := s.dropWhile jsWhitespaceB

/-- Right half of `String.prototype.trim`. -/
def trimR (s : List Char) : List Char := (s.reverse.dropWhile jsWhitespaceB).reverse

/-- `String.prototype.trim` over `List Char`. -/
def jsTrim (s : List Char) : List Char := trimR (trimL s)

/-- Test that the first list is an initial segment of the second (the model's
own, so that it evaluates by `rfl`). -/
def leadsWith : List Char → List Char → Bool
  | [], _ => true
  | _ :: _, [] => false
  | a :: as, b :: bs => a == b && leadsWith as bs

/-- Test that the first list occurs contiguously inside the second, i.e.
JavaScript `String.prototype.includes`. -/
def containsSub (needle : List Char) : List Char → Bool
  | [] => needle.isEmpty
  | c :: rest => leadsWith needle (c :: rest) || containsSub needle rest

/-- The seven characters matched (besides trailing whitespace) by the first
alternative of the regex at `geminiService.ts:202`. -/
def fenceOpen : List Char := btick :: btick :: btick :: 'j' :: 's' :: 'o' :: 'n' :: []

/-- Removal of a trailing triple backtick: the second alternative of the
regex, three backticks anchored at the very end of the string. -/
def dropTicksSuffix (s : List Char) : List Char :=
  match s.reverse with
  | c1 :: c2 :: c3 :: rest =>
    if c1 == btick && c2 == btick && c3 == btick then rest.reverse else s
  | _ => s

/-- `text.replace(/^```json\s*|```$/g, '')` (`geminiService.ts:202`).  The
first alternative is anchored at position 0 (no `m` flag), so it matches at
most once and removes a leading ` ```json ` marker together with the
whitespace run after it; the second alternative matches only a triple
backtick at the very end of what remains. -/
def stripFence (s : List Char) : List Char :=
  let s1 :=
    if leadsWith fenceOpen s then (s.drop fenceOpen.length).dropWhile jsWhitespaceB
    else s
  dropTicksSuffix s1

/-- Lower-casing of an error message, as in
`error.message.toLowerCase()` (`geminiService.ts:73`). -/
def lowerChars (msg : String) : List Char := msg.toList.map Char.toLower

/-- The non-retryable classification of `retryWithBackoff`
(`geminiService.ts:72`–`77`): the lowercased message contains `400`,
`invalid file` or `malformed`. -/
def isNonRetryable (msg : String) : Bool :=
  containsSub "400".toList (lowerChars msg) ||
    containsSub "invalid file".toList (lowerChars msg) ||
    containsSub "malformed".toList (lowerChars msg)

/-- The `for` loop of `retryWithBackoff` (`geminiService.ts:58`–`88`) from
iteration `attempt` on, with `remaining = maxRetries - attempt` further
iterations allowed after the current one.  `outcomes i` is the result the
operation produces when invoked by iteration `i`.  Returns how many times the
operation was invoked, the back-off delays slept (in order), and the
propagated result.  In the last iteration a non-retryable error is thrown
from the classification and any other error is thrown as `lastError` after
the loop; both give the same triple, so the branches are merged. -/
def retryLoop {T : Type} (outcomes : Nat → Except String T) (initialDelay : Nat) :
    Nat → Nat → Nat × List Nat × Except String T
  | attempt, 0 =>
    match outcomes attempt with
    | Except.ok v => (1, [], Except.ok v)
    | Except.error e => (1, [], Except.error e)
  | attempt, remaining + 1 =>
    match outcomes attempt with
    | Except.ok v => (1, [], Except.ok v)
    | Except.error e =>
      if isNonRetryable e then (1, [], Except.error e)
      else
        let rest := retryLoop outcomes initialDelay (attempt + 1) remaining
        (rest.1 + 1, initialDelay * 2 ^ attempt :: rest.2.1, rest.2.2)

/-- `retryWithBackoff(fn, maxRetries, initialDelay)`
(`geminiService.ts:58`–`88`). -/
def retryWithBackoff {T : Type} (outcomes : Nat → Except String T)
    (maxRetries initialDelay : Nat) : Nat × List Nat × Except String T :=
  retryLoop outcomes initialDelay 0 maxRetries

/-- The outcome is a failure that the wrapper's classification would retry. -/
def retryableFailB {T : Type} : Except String T → Bool
  | Except.error e => !isNonRetryable e
  | Except.ok _ => false

/-- `AICacheEntry` as written by the `aiCache` service; the ISO `timestamp`
string is modelled by its value in milliseconds since the epoch. -/
structure AICacheEntry : Type where
  videoHash : String
  analysisResult : Json
  timestamp : Nat
  modelUsed : String

/-- The deserialised content of the single localStorage blob under
`ai_workout_analysis_cache`: a JavaScript object, i.e. an insertion-ordered
association of necessarily unique string keys to entries. -/
abbrev Cache : Type := List (String × AICacheEntry)

def CACHE_EXPIRY_DAYS : Nat := 30

def msPerDay : Nat := 1000 * 60 * 60 * 24

/-- `isExpired` of the `aiCache` service: `daysDiff > 30` where `daysDiff`
is `(now - entry.timestamp) / 86400000` in double precision; for millisecond
counts below 2^53 that comparison is exactly the integer comparison
`now - timestamp > 30 * 86400000` (natural subtraction also matches the
source on timestamps in the future, which give a negative `daysDiff`). -/
def isExpired (entry : AICacheEntry) (now : Nat) : Bool :=
  decide (CACHE_EXPIRY_DAYS * msPerDay < now - entry.timestamp)

/-- Property read `cache[key]` on the deserialised JavaScript object. -/
def getEntry : Cache → String → Option AICacheEntry
  | [], _ => none
  | (k', v) :: rest, k => if k' = k then some v else getEntry rest k

/-- Property write `cache[key] = entry`: overwrite in place keeping the
insertion order, otherwise append. -/
def setEntry : Cache → String → AICacheEntry → Cache
  | [], k, v => [(k, v)]
  | (k', v') :: rest, k, v =>
    if k' = k then (k, v) :: rest else (k', v') :: setEntry rest k v

/-- `delete cache[key]`.  Object keys are unique, so removing every pair
carrying the key is the removal of the one matching pair. -/
def delEntry (c : Cache) (k : String) : Cache := c.filter (fun p => p.1 != k)

/-- The cache key `${videoHash}_${modelUsed}` used by both cache
operations. -/
def cacheKey (videoHash modelUsed : String) : String := videoHash ++ "_" ++ modelUsed

/-- `getCachedAnalysis(videoHash, modelUsed)` of the `aiCache` service.
Returns the result and the persisted cache afterwards (changed only when an
expired entry is deleted). -/
def getCachedAnalysis (st : Cache) (now : Nat) (videoHash modelUsed : String) :
    Option Json × Cache :=
  let key := cacheKey videoHash modelUsed
  match getEntry st key with
  | none => (none, st)
  | some entry =>
    if isExpired entry now then (none, delEntry st key)
    else (some entry.analysisResult, st)

/-- `cacheAnalysis(videoHash, analysisResult, modelUsed)` of the `aiCache`
service. -/
def cacheAnalysis (st : Cache) (now : Nat) (videoHash : String) (analysisResult : Json)
    (modelUsed : String) : Cache :=
  setEntry st (cacheKey videoHash modelUsed)
    { videoHash := videoHash, analysisResult := analysisResult,
      timestamp := now, modelUsed := modelUsed }

/-- `generateVideoHash` of the video utility module (lines 103–120): the hex
digest of the first 64KB combined with name, size and last-modified
metadata.  The SHA-256 digest of the content chunk is a parameter. -/
def generateVideoHash (hexDigest name : String) (size lastModified : Nat) : String :=
  hexDigest ++ "-" ++ name ++ "-" ++ toString size ++ "-" ++ toString lastModified

/-- JavaScript truthiness of a JSON value, as in `if (cached)` and
`item && ...` of the orchestrator. -/
def truthy : Json → Bool
  | Json.null => false
  | Json.bool b => b
  | Json.num q => q != 0
  | Json.str s => !s.data.isEmpty
  | Json.arr _ => true
  | Json.obj _ => true

/-- Property lookup on an object's field list. -/
def lookupField : List (String × Json) → String → Option Json
  | [], _ => none
  | (k', v) :: rest, k => if k' = k then some v else lookupField rest k

/-- `item.field` for a JSON value: objects expose their fields, every other
value yields `undefined` (`none`). -/
def getField (j : Json) (k : String) : Option Json :=
  match j with
  | Json.obj fields => lookupField fields k
  | _ => none

/-- `typeof item.field === 'string'` with `none` as `undefined`. -/
def isStringJ : Option Json → Bool
  | some (Json.str _) => true
  | _ => false

/-- `typeof item.field === 'number'` with `none` as `undefined`. -/
def isNumberJ : Option Json → Bool
  | some (Json.num _) => true
  | _ => false

/-- The per-element validation of `geminiService.ts:228`–`234`. -/
def isValidExercise (item : Json) : Bool :=
  truthy item && isStringJ (getField item "name") &&
    isStringJ (getField item "description") &&
    isNumberJ (getField item "startTime") && isNumberJ (getField item "endTime")

/-- `Object.values(parsed).find(value => Array.isArray(value))`. -/
def firstArray : List Json → Option (List Json)
  | [] => none
  | Json.arr xs :: _ => some xs
  | _ :: rest => firstArray rest

/-- Location of the exercises array (`geminiService.ts:216`–`225`): the
parsed value itself when it is an array, otherwise the first array-typed
value of a top-level object. -/
def findExercisesArray : Json → Option (List Json)
  | Json.arr xs => some xs
  | Json.obj fields => firstArray (fields.map Prod.snd)
  | _ => none

def invalidMsg : String := "Parsed data is not a valid array of exercises."

def malformedMsg : String := "The AI returned malformed JSON."

/-- `response.text.trim().replace(/^```json\s*|```$/g, '').trim()`
(`geminiService.ts:200`–`202`). -/
def cleanedOf (text : List Char) : List Char := jsTrim (stripFence (jsTrim text))

/-- Parse, locate and validate the cleaned response text
(`geminiService.ts:204`–`249`).  `parse` is the host platform's `JSON.parse`
with `none` standing for the thrown `SyntaxError`.  On success the `Bool`
records whether the run went through the validated branch of line 235 (the
branch that may write the cache); the early return for an empty cleaned
string (line 205) does not. -/
def handleCleaned (parse : List Char → Option Json) (cleaned : List Char) :
    Except String (List Json × Bool) :=
  if cleaned.isEmpty then Except.ok ([], false)
  else
    match parse cleaned with
    | none => Except.error malformedMsg
    | some parsed =>
      match findExercisesArray parsed with
      | some xs =>
        if xs.all isValidExercise then Except.ok (xs, true) else Except.error invalidMsg
      | none => Except.error invalidMsg

/-- The whole response-processing step of the orchestrator. -/
def processText (parse : List Char → Option Json) (text : List Char) :
    Except String (List Json × Bool) :=
  handleCleaned parse (cleanedOf text)

/-- The catch block of `geminiService.ts:251`–`259`. -/
def rewriteError (msg : String) : String :=
  if containsSub "400 Bad Request".toList msg.toList ||
      containsSub "blocked".toList msg.toList ||
      containsSub "Proxying failed".toList msg.toList then
    "The AI model could not process the video. This can happen with very large, long, or complex videos. Please try a shorter, simpler clip. Error details: " ++ msg
  else
    "Failed to parse AI response from video. Raw response might be invalid. Error: " ++ msg

/-- `useProModel ? 'pro' : 'flash'` (`geminiService.ts:97`, `240`). -/
def modelName (useProModel : Bool) : String := if useProModel then "pro" else "flash"

/-- Observable outcome of one `analyzeVideoAndExtractExercises` run: the
returned value or thrown message, the persisted cache afterwards, whether
`retryWithBackoff` was invoked, and how many times the model was called. -/
structure AnalyzeOutcome : Type where
  result : Except String Json
  cache : Cache
  wrapperInvoked : Bool
  modelCalls : Nat

/-- `videoFile.type.startsWith('video/')` (`geminiService.ts:107`). -/
def videoTypeOk (vt : List Char) : Bool := leadsWith "video/".toList vt

/-- `analyzeVideoAndExtractExercises` after the cache lookup produced no
truthy hit (`geminiService.ts:105`–`259`): file-type check, model call
through `retryWithBackoff(·, 3, 2000)`, response processing, and the
write-through of line 239–242 when a hash was supplied.  The conversion of
the video file to a request part is not modelled; it influences none of the
properties below. -/
def analyzeMiss (parse : List Char → Option Json)
    (outcomes : Nat → Except String (List Char)) (st : Cache) (now : Nat)
    (vt : List Char) (useProModel : Bool) (videoHash : Option String) : AnalyzeOutcome :=
  if videoTypeOk vt then
    let tr := retryWithBackoff outcomes 3 2000
    match tr.2.2 with
    | Except.error e => ⟨Except.error (rewriteError e), st, true, tr.1⟩
    | Except.ok text =>
      match processText parse text with
      | Except.error e => ⟨Except.error (rewriteError e), st, true, tr.1⟩
      | Except.ok (xs, cacheIt) =>
        match videoHash, cacheIt with
        | some h, true =>
          ⟨Except.ok (Json.arr xs),
            cacheAnalysis st now h (Json.arr xs) (modelName useProModel), true, tr.1⟩
        | _, _ => ⟨Except.ok (Json.arr xs), st, true, tr.1⟩
  else ⟨Except.error "Invalid file type. Please upload a video file.", st, false, 0⟩

/-- `analyzeVideoAndExtractExercises(videoFile, useProModel, videoHash)`
(`geminiService.ts:90`–`260`): the cached value is returned as is (the
source casts it without inspection) when the lookup yields a truthy value;
otherwise the run continues past the cache. -/
def analyzeVideo (parse : List Char → Option Json)
    (outcomes : Nat → Except String (List Char)) (st : Cache) (now : Nat)
    (vt : List Char) (useProModel : Bool) (videoHash : Option String) : AnalyzeOutcome :=
  let look : Option Json × Cache :=
    match videoHash with
    | some h => getCachedAnalysis st now h (modelName useProModel)
    | none => (none, st)
  match look.1 with
  | some cached =>
    if truthy cached then ⟨Except.ok cached, look.2, false, 0⟩
    else analyzeMiss parse outcomes look.2 now vt useProModel videoHash
  | none => analyzeMiss parse outcomes look.2 now vt useProModel videoHash

/-- `s` wrapped in a ```json code fence. -/
def wrapJson (s : List Char) : List Char :=
  fenceOpen ++ '\n' :: (s ++ '\n' :: btick :: btick :: btick :: [])

/-- A concrete cache entry used by witnesses. -/
def entryW : AICacheEntry :=
  { videoHash := "h", analysisResult := Json.str "r", timestamp := 0, modelUsed := "flash" }

/-- A well-formed exercise object used by witnesses. -/
def goodItem : Json :=
  Json.obj [("name", Json.str "squat"), ("description", Json.str "d"),
    ("startTime", Json.num 1), ("endTime", Json.num 2)]

/-- An exercise object with no `startTime` field, used by witnesses. -/
def badItem : Json :=
  Json.obj [("name", Json.str "squat"), ("description", Json.str "d"),
    ("endTime", Json.num 2)]

/-- A one-character response text used by witnesses. -/
def wText : List Char := String.toList "["

/-- A concrete stand-in for `JSON.parse` used by witnesses: every text parses
to the singleton array holding `badItem`. -/
def wParseBad : List Char → Option Json := fun _ => some (Json.arr [badItem])

/-- A concrete stand-in for `JSON.parse` used by witnesses: every text parses
to the singleton array holding `goodItem`. -/
def wParseGood : List Char → Option Json := fun _ => some (Json.arr [goodItem])

/-- A model that answers `wText` on every attempt, used by witnesses. -/
def wOutcomesOk : Nat → Except String (List Char) := fun _ => Except.ok wText

/-- A model that fails retryably once and then answers `wText`, used by
witnesses (the spec scenario of success on attempt 2). -/
def wOutcomesRetry : Nat → Except String (List Char) :=
  fun i => if i = 0 then Except.error "timeout" else Except.ok wText

/-- A model whose answer is whitespace only, used by witnesses. -/
def wOutcomesBlank : Nat → Except String (List Char) :=
  fun _ => Except.ok (String.toList "  ")

/-- A stand-in for `JSON.parse` that always fails, used by witnesses (the
runs it appears in never parse). -/
def wParseNone : List Char → Option Json := fun _ => none

/-! ### Helper lemmas -/

theorem getEntry_setEntry (c : Cache) (k : String) (v : AICacheEntry) :
    getEntry (setEntry c k v) k = some v := by
  induction c with
  | nil => simp [setEntry, getEntry]
  | cons p rest ih =>
    obtain ⟨k', v'⟩ := p
    by_cases h : k' = k
    · simp [setEntry, getEntry, h]
    · simp [setEntry, getEntry, h, ih]

theorem getEntry_delEntry (c : Cache) (k : String) :
    getEntry (delEntry c k) k = none := by
  induction c with
  | nil => rfl
  | cons p rest ih =>
    obtain ⟨k', v'⟩ := p
    by_cases h : k' = k
    · subst h
      simpa [delEntry, List.filter_cons] using ih
    · simpa [delEntry, List.filter_cons, h, getEntry] using ih

theorem retryLoop_sleeps_length {T : Type} (outcomes : Nat → Except String T) (d : Nat) :
    ∀ remaining attempt, (retryLoop outcomes d attempt remaining).2.1.length ≤ remaining := by
  intro remaining
  induction remaining with
  | zero =>
    intro attempt
    cases h : outcomes attempt <;> simp [retryLoop, h]
  | succ r ih =>
    intro attempt
    cases h : outcomes attempt with
    | ok v => simp [retryLoop, h]
    | error e =>
      by_cases hn : isNonRetryable e
      · simp [retryLoop, h, hn]
      · simpa [retryLoop, h, hn] using Nat.succ_le_succ (ih (attempt + 1))

theorem retryLoop_sleeps_get {T : Type} (outcomes : Nat → Except String T) (d : Nat) :
    ∀ remaining attempt i, i < remaining →
      (∀ j, j ≤ i → retryableFailB (outcomes (attempt + j)) = true) →
      (retryLoop outcomes d attempt remaining).2.1.get? i = some (d * 2 ^ (attempt + i)) := by
  intro remaining
  induction remaining with
  | zero =>
    intro attempt i hi _
    exact absurd hi (Nat.not_lt_zero i)
  | succ r ih =>
    intro attempt i hi hfail
    have h0 := hfail 0 (Nat.zero_le i)
    rw [Nat.add_zero] at h0
    cases hg : outcomes attempt with
    | ok v => rw [hg] at h0; simp [retryableFailB] at h0
    | error e =>
      rw [hg] at h0
      have hn : isNonRetryable e = false := by simpa [retryableFailB] using h0
      cases i with
      | zero => simp [retryLoop, hg, hn]
      | succ i' =>
        have hfail' : ∀ j, j ≤ i' → retryableFailB (outcomes (attempt + 1 + j)) = true := by
          intro j hj
          have hx := hfail (j + 1) (Nat.succ_le_succ hj)
          rwa [show attempt + (j + 1) = attempt + 1 + j by omega] at hx
        have hrec := ih (attempt + 1) i' (Nat.lt_of_succ_lt_succ hi) hfail'
        rw [show attempt + (i' + 1) = attempt + 1 + i' by omega]
        simpa [retryLoop, hg, hn] using hrec

/-! ### Claim theorems -/

/-- C2: for every zero-argument operation failing on every call with a
retryable error, `retryWithBackoff` with a retry ceiling of 3 invokes the
operation exactly 4 times (1 initial attempt + 3 retries) and propagates the
failure observed on the last attempt. -/
theorem retry_exhausts_attempts (err : Nat → String) (initialDelay : Nat)
    (h : ∀ i, isNonRetryable (err i) = false) :
    retryWithBackoff (fun i => (Except.error (err i) : Except String Unit)) 3 initialDelay
      = (4, [initialDelay * 2 ^ 0, initialDelay * 2 ^ 1, initialDelay * 2 ^ 2],
          Except.error (err 3)) := by
  simp [retryWithBackoff, retryLoop, h 0, h 1, h 2, h 3]

theorem retry_exhausts_attempts_witness :
    (∀ i : Nat, isNonRetryable ((fun _ => "timeout") i) = false) ∧
    retryWithBackoff (fun i => (Except.error ((fun _ => "timeout") i) : Except String Unit))
        3 2000
      = (4, [2000 * 2 ^ 0, 2000 * 2 ^ 1, 2000 * 2 ^ 2],
          Except.error ((fun _ => "timeout") 3)) :=
  ⟨fun _ => by rfl, retry_exhausts_attempts (fun _ => "timeout") 2000 (fun _ => by rfl)⟩

/-- C3: an operation whose first failure is classified non-retryable (its
lowercased message contains `400`, `invalid file` or `malformed`) is invoked
exactly once; the error is propagated with no sleep and no further
attempt. -/
theorem retry_nonretryable_once {T : Type} (outcomes : Nat → Except String T)
    (maxRetries initialDelay : Nat) (e : String)
    (h0 : outcomes 0 = Except.error e) (hnr : isNonRetryable e = true) :
    retryWithBackoff outcomes maxRetries initialDelay = (1, [], Except.error e) := by
  cases maxRetries with
  | zero => simp [retryWithBackoff, retryLoop, h0]
  | succ n => simp [retryWithBackoff, retryLoop, h0, hnr]

theorem retry_nonretryable_once_witness :
    ((fun _ => (Except.error "400 Bad Request" : Except String Unit)) 0
        = Except.error "400 Bad Request") ∧
    isNonRetryable "400 Bad Request" = true ∧
    retryWithBackoff (fun _ => (Except.error "400 Bad Request" : Except String Unit)) 3 2000
      = (1, [], Except.error "400 Bad Request") :=
  ⟨rfl, by rfl,
    retry_nonretryable_once (fun _ => Except.error "400 Bad Request") 3 2000
      "400 Bad Request" rfl (by rfl)⟩

/-- C8: when the run reaches attempt `i < maxRetries` and that attempt fails
retryably, the wrapper sleeps exactly `initialDelay * 2 ^ i` before the next
attempt; and no sleep ever follows the final attempt (at most `maxRetries`
sleeps happen in total). -/
theorem retry_backoff_delays {T : Type} (outcomes : Nat → Except String T)
    (maxRetries initialDelay i : Nat) (hi : i < maxRetries)
    (hfail : ∀ j, j ≤ i → retryableFailB (outcomes j) = true) :
    (retryWithBackoff outcomes maxRetries initialDelay).2.1.get? i
        = some (initialDelay * 2 ^ i) ∧
    (retryWithBackoff outcomes maxRetries initialDelay).2.1.length ≤ maxRetries := by
  constructor
  · have hx := retryLoop_sleeps_get outcomes initialDelay maxRetries 0 i hi
      (by simpa using hfail)
    simpa [retryWithBackoff] using hx
  · simpa [retryWithBackoff] using retryLoop_sleeps_length outcomes initialDelay maxRetries 0

theorem retry_backoff_delays_witness :
    (0 < 3 ∧ ∀ j : Nat, j ≤ 0 →
      retryableFailB ((fun _ => (Except.error "timeout" : Except String Unit)) j) = true) ∧
    ((retryWithBackoff (fun _ => (Except.error "timeout" : Except String Unit)) 3 2000).2.1.get? 0
        = some (2000 * 2 ^ 0) ∧
      (retryWithBackoff (fun _ => (Except.error "timeout" : Except String Unit)) 3 2000).2.1.length
        ≤ 3) :=
  ⟨⟨by decide, fun _ _ => by rfl⟩,
    retry_backoff_delays (fun _ => Except.error "timeout") 3 2000 0 (by decide)
      (fun _ _ => by rfl)⟩

/-- C4: `cacheAnalysis` followed by `getCachedAnalysis` on the same
`(contentHash, modelVariant)` pair, at any read time within the retention
window, returns the stored result unchanged. -/
theorem cache_put_get_roundtrip (st : Cache) (now now2 : Nat) (h v : String) (r : Json)
    (hfresh : now2 - now ≤ CACHE_EXPIRY_DAYS * msPerDay) :
    (getCachedAnalysis (cacheAnalysis st now h r v) now2 h v).1 = some r := by
  have hget := getEntry_setEntry st (cacheKey h v)
    { videoHash := h, analysisResult := r, timestamp := now, modelUsed := v }
  have hexp : isExpired
      { videoHash := h, analysisResult := r, timestamp := now, modelUsed := v } now2 = false := by
    simp only [isExpired, decide_eq_false_iff_not]
    omega
  simp [getCachedAnalysis, cacheAnalysis, hget, hexp]

theorem cache_put_get_roundtrip_witness :
    ((0 : Nat) - 0 ≤ CACHE_EXPIRY_DAYS * msPerDay) ∧
    (getCachedAnalysis (cacheAnalysis [] 0 "h" (Json.str "r") "flash") 0 "h" "flash").1
      = some (Json.str "r") :=
  ⟨by decide, cache_put_get_roundtrip [] 0 0 "h" "flash" (Json.str "r") (by decide)⟩

/-- C5: on a key holding an entry older than the retention window,
`getCachedAnalysis` returns absent, and the expired entry is deleted from the
persisted store, so its key appears in no subsequent enumeration. -/
theorem cache_get_expired_removes (st : Cache) (now : Nat) (h v : String)
    (entry : AICacheEntry) (hentry : getEntry st (cacheKey h v) = some entry)
    (hexp : isExpired entry now = true) :
    (getCachedAnalysis st now h v).1 = none ∧
    (getCachedAnalysis st now h v).2 = delEntry st (cacheKey h v) ∧
    ∀ p ∈ (getCachedAnalysis st now h v).2, p.1 ≠ cacheKey h v := by
  have hres : getCachedAnalysis st now h v = (none, delEntry st (cacheKey h v)) := by
    simp [getCachedAnalysis, hentry, hexp]
  refine ⟨by simp [hres], by simp [hres], ?_⟩
  intro p hp
  rw [hres] at hp
  simpa using (List.mem_filter.mp hp).2

theorem cache_get_expired_removes_witness :
    (getEntry [(cacheKey "h" "flash", entryW)] (cacheKey "h" "flash") = some entryW) ∧
    isExpired entryW 2592000001 = true ∧
    ((getCachedAnalysis [(cacheKey "h" "flash", entryW)] 2592000001 "h" "flash").1 = none ∧
      (getCachedAnalysis [(cacheKey "h" "flash", entryW)] 2592000001 "h" "flash").2
        = delEntry [(cacheKey "h" "flash", entryW)] (cacheKey "h" "flash") ∧
      ∀ p ∈ (getCachedAnalysis [(cacheKey "h" "flash", entryW)] 2592000001 "h" "flash").2,
        p.1 ≠ cacheKey "h" "flash") :=
  ⟨rfl, by decide,
    cache_get_expired_removes [(cacheKey "h" "flash", entryW)] 2592000001 "h" "flash"
      entryW rfl (by decide)⟩

/-- C10: the cache key `contentHash ++ "_" ++ modelVariant` is not injective
over pairs: the distinct pairs `(generateVideoHash "x" "a_b" 0 0, "c")` and
`("x-a", "b-0-0_c")` share one key (the underscore comes from the file name
embedded in the hash), so an entry put under the first pair is observed by a
get under the second. -/
theorem cache_key_collision :
    (generateVideoHash "x" "a_b" 0 0, "c") ≠ (("x-a", "b-0-0_c") : String × String) ∧
    cacheKey (generateVideoHash "x" "a_b" 0 0) "c" = cacheKey "x-a" "b-0-0_c" ∧
    (getCachedAnalysis
        (cacheAnalysis [] 0 (generateVideoHash "x" "a_b" 0 0) (Json.str "r") "c")
        0 "x-a" "b-0-0_c").1 = some (Json.str "r") :=
  ⟨by decide, rfl, rfl⟩

theorem getCachedAnalysis_after_miss (st : Cache) (now now2 : Nat) (h v : String)
    (hm : (getCachedAnalysis st now h v).1 = none) :
    (getCachedAnalysis ((getCachedAnalysis st now h v).2) now2 h v).1 = none := by
  have hkey : getEntry (getCachedAnalysis st now h v).2 (cacheKey h v) = none := by
    rcases hg : getEntry st (cacheKey h v) with _ | entry
    · simp [getCachedAnalysis, hg]
    · by_cases he : isExpired entry now
      · simp [getCachedAnalysis, hg, he, getEntry_delEntry]
      · simp [getCachedAnalysis, hg, he] at hm
  generalize (getCachedAnalysis st now h v).2 = st2 at hkey ⊢
  simp [getCachedAnalysis, hkey]

theorem analyzeMiss_wrapperInvoked (parse : List Char → Option Json)
    (outcomes : Nat → Except String (List Char)) (st : Cache) (now : Nat)
    (vt : List Char) (useProModel : Bool) (videoHash : Option String)
    (hvt : videoTypeOk vt = true) :
    (analyzeMiss parse outcomes st now vt useProModel videoHash).wrapperInvoked = true := by
  rcases hE : (retryWithBackoff outcomes 3 2000).2.2 with e | text
  · simp [analyzeMiss, hvt, hE]
  · rcases hP : processText parse text with e | p
    · simp [analyzeMiss, hvt, hE, hP]
    · obtain ⟨xs, b⟩ := p
      rcases videoHash with _ | hh <;> cases b <;> simp [analyzeMiss, hvt, hE, hP]

/-- C6: when the parsed response is an array containing an element that lacks
the `startTime` field or whose `description` field is not a string,
validation fails and the orchestrator throws; it never returns a partial or
filtered subset of the array. -/
theorem validation_rejects_bad_elements (parse : List Char → Option Json)
    (outcomes : Nat → Except String (List Char)) (st : Cache) (now : Nat)
    (vt : List Char) (useProModel : Bool) (videoHash : Option String)
    (text : List Char) (n : Nat) (ds : List Nat) (xs : List Json) (item : Json)
    (hmiss : ∀ h, videoHash = some h →
      (getCachedAnalysis st now h (modelName useProModel)).1 = none)
    (hvt : videoTypeOk vt = true)
    (hretry : retryWithBackoff outcomes 3 2000 = (n, ds, Except.ok text))
    (hclean : cleanedOf text ≠ [])
    (hparse : parse (cleanedOf text) = some (Json.arr xs))
    (hitem : item ∈ xs)
    (hbad : getField item "startTime" = none ∨
      isStringJ (getField item "description") = false) :
    (analyzeVideo parse outcomes st now vt useProModel videoHash).result
      = Except.error (rewriteError invalidMsg) := by
  have hinvalid : isValidExercise item = false := by
    rcases hbad with hb | hb
    · simp [isValidExercise, hb, isNumberJ]
    · simp [isValidExercise, hb]
  have hall : xs.all isValidExercise = false := by
    cases hA : xs.all isValidExercise
    · rfl
    · exact absurd (List.all_eq_true.mp hA item hitem) (by simp [hinvalid])
  have hne : (cleanedOf text).isEmpty = false := by
    cases hcl : cleanedOf text
    · exact absurd hcl hclean
    · rfl
  have hproc : processText parse text = Except.error invalidMsg := by
    simp [processText, handleCleaned, hne, hparse, findExercisesArray, hall]
  rcases videoHash with _ | hh
  · simp [analyzeVideo, analyzeMiss, hvt, hretry, hproc]
  · simp [analyzeVideo, hmiss hh rfl, analyzeMiss, hvt, hretry, hproc]

theorem validation_rejects_bad_elements_witness :
    (videoTypeOk (String.toList "video/mp4") = true) ∧
    (retryWithBackoff wOutcomesOk 3 2000 = (1, [], Except.ok wText)) ∧
    (cleanedOf wText ≠ []) ∧
    (wParseBad (cleanedOf wText) = some (Json.arr [badItem])) ∧
    (badItem ∈ [badItem]) ∧
    (getField badItem "startTime" = none) ∧
    ((analyzeVideo wParseBad wOutcomesOk [] 0 (String.toList "video/mp4") false none).result
      = Except.error (rewriteError invalidMsg)) :=
  ⟨rfl, rfl, by decide, rfl, by simp, rfl,
    validation_rejects_bad_elements wParseBad wOutcomesOk [] 0
      (String.toList "video/mp4") false none wText 1 [] [badItem] badItem
      (fun _ hc => nomatch hc) rfl rfl (by decide) rfl (by simp) (Or.inl rfl)⟩

/-- C9: when the model's response text is empty or whitespace-only after
code-fence stripping, the orchestrator returns an empty array without
throwing and writes nothing to the cache, so a subsequent call with the same
`(hash, variant)` pair invokes the retry wrapper (and hence the model)
again. -/
theorem empty_response_not_cached (parse : List Char → Option Json)
    (outcomes : Nat → Except String (List Char)) (st : Cache) (now : Nat)
    (vt : List Char) (useProModel : Bool) (h : String)
    (text : List Char) (n : Nat) (ds : List Nat)
    (hmiss : (getCachedAnalysis st now h (modelName useProModel)).1 = none)
    (hvt : videoTypeOk vt = true)
    (hretry : retryWithBackoff outcomes 3 2000 = (n, ds, Except.ok text))
    (hempty : cleanedOf text = []) :
    (analyzeVideo parse outcomes st now vt useProModel (some h)).result
        = Except.ok (Json.arr []) ∧
    (analyzeVideo parse outcomes st now vt useProModel (some h)).cache
        = (getCachedAnalysis st now h (modelName useProModel)).2 ∧
    ∀ parse2 outcomes2 vt2 now2, videoTypeOk vt2 = true →
      (analyzeVideo parse2 outcomes2
          (analyzeVideo parse outcomes st now vt useProModel (some h)).cache
          now2 vt2 useProModel (some h)).wrapperInvoked = true := by
  have hproc : processText parse text = Except.ok ([], false) := by
    simp [processText, handleCleaned, hempty]
  have hfirst : analyzeVideo parse outcomes st now vt useProModel (some h)
      = ⟨Except.ok (Json.arr []),
          (getCachedAnalysis st now h (modelName useProModel)).2, true, n⟩ := by
    simp [analyzeVideo, hmiss, analyzeMiss, hvt, hretry, hproc]
  refine ⟨by simp [hfirst], by simp [hfirst], ?_⟩
  intro parse2 outcomes2 vt2 now2 hvt2
  rw [hfirst]
  have hmiss2 := getCachedAnalysis_after_miss st now now2 h (modelName useProModel) hmiss
  simp only [analyzeVideo, hmiss2]
  exact analyzeMiss_wrapperInvoked parse2 outcomes2 _ now2 vt2 useProModel (some h) hvt2

theorem empty_response_not_cached_witness :
    ((getCachedAnalysis [] 0 "h" (modelName false)).1 = none) ∧
    (videoTypeOk (String.toList "video/mp4") = true) ∧
    (retryWithBackoff wOutcomesBlank 3 2000 = (1, [], Except.ok (String.toList "  "))) ∧
    (cleanedOf (String.toList "  ") = []) ∧
    ((analyzeVideo wParseNone wOutcomesBlank [] 0 (String.toList "video/mp4") false
        (some "h")).result = Except.ok (Json.arr []) ∧
      (analyzeVideo wParseNone wOutcomesBlank [] 0 (String.toList "video/mp4") false
        (some "h")).cache = (getCachedAnalysis [] 0 "h" (modelName false)).2 ∧
      ∀ parse2 outcomes2 vt2 now2, videoTypeOk vt2 = true →
        (analyzeVideo parse2 outcomes2
            (analyzeVideo wParseNone wOutcomesBlank [] 0 (String.toList "video/mp4") false
              (some "h")).cache
            now2 vt2 false (some "h")).wrapperInvoked = true) :=
  ⟨rfl, rfl, rfl, by decide,
    empty_response_not_cached wParseNone wOutcomesBlank [] 0
      (String.toList "video/mp4") false "h" (String.toList "  ") 1 []
      rfl rfl rfl (by decide)⟩

/-- C1: with a content hash supplied, a cache miss followed by a successful,
validated model response writes the result through to the cache, and a
subsequent call with the same `(hash, variant)` pair within the retention
window returns that cached result without invoking the retry wrapper or the
model again. -/
theorem analyze_cache_write_then_hit (parse : List Char → Option Json)
    (outcomes : Nat → Except String (List Char)) (st : Cache) (now now2 : Nat)
    (vt : List Char) (useProModel : Bool) (h : String)
    (text : List Char) (n : Nat) (ds : List Nat) (xs : List Json)
    (hmiss : (getCachedAnalysis st now h (modelName useProModel)).1 = none)
    (hvt : videoTypeOk vt = true)
    (hretry : retryWithBackoff outcomes 3 2000 = (n, ds, Except.ok text))
    (hproc : processText parse text = Except.ok (xs, true))
    (hfresh : now2 - now ≤ CACHE_EXPIRY_DAYS * msPerDay) :
    (analyzeVideo parse outcomes st now vt useProModel (some h)).result
        = Except.ok (Json.arr xs) ∧
    ∀ parse2 outcomes2 vt2,
      (analyzeVideo parse2 outcomes2
          (analyzeVideo parse outcomes st now vt useProModel (some h)).cache
          now2 vt2 useProModel (some h)).result = Except.ok (Json.arr xs) ∧
      (analyzeVideo parse2 outcomes2
          (analyzeVideo parse outcomes st now vt useProModel (some h)).cache
          now2 vt2 useProModel (some h)).wrapperInvoked = false ∧
      (analyzeVideo parse2 outcomes2
          (analyzeVideo parse outcomes st now vt useProModel (some h)).cache
          now2 vt2 useProModel (some h)).modelCalls = 0 := by
  have hfirst : analyzeVideo parse outcomes st now vt useProModel (some h)
      = ⟨Except.ok (Json.arr xs),
          cacheAnalysis (getCachedAnalysis st now h (modelName useProModel)).2 now h
            (Json.arr xs) (modelName useProModel), true, n⟩ := by
    simp [analyzeVideo, hmiss, analyzeMiss, hvt, hretry, hproc]
  have hexp : isExpired (AICacheEntry.mk h (Json.arr xs) now (modelName useProModel)) now2
      = false := by
    simp only [isExpired, decide_eq_false_iff_not]
    omega
  have hget := getEntry_setEntry (getCachedAnalysis st now h (modelName useProModel)).2
    (cacheKey h (modelName useProModel))
    (AICacheEntry.mk h (Json.arr xs) now (modelName useProModel))
  have hlook2 : getCachedAnalysis
      (cacheAnalysis (getCachedAnalysis st now h (modelName useProModel)).2 now h
        (Json.arr xs) (modelName useProModel)) now2 h (modelName useProModel)
      = (some (Json.arr xs),
          cacheAnalysis (getCachedAnalysis st now h (modelName useProModel)).2 now h
            (Json.arr xs) (modelName useProModel)) := by
    generalize (getCachedAnalysis st now h (modelName useProModel)).2 = st2 at hget ⊢
    simp [getCachedAnalysis, cacheAnalysis, hget, hexp]
  refine ⟨by simp [hfirst], ?_⟩
  intro parse2 outcomes2 vt2
  rw [hfirst]
  refine ⟨?_, ?_, ?_⟩ <;> simp [analyzeVideo, hlook2, truthy]

theorem analyze_cache_write_then_hit_witness :
    ((getCachedAnalysis [] 0 "h" (modelName false)).1 = none) ∧
    (videoTypeOk (String.toList "video/mp4") = true) ∧
    (retryWithBackoff wOutcomesRetry 3 2000 = (2, [2000], Except.ok wText)) ∧
    (processText wParseGood wText = Except.ok ([goodItem], true)) ∧
    ((0 : Nat) - 0 ≤ CACHE_EXPIRY_DAYS * msPerDay) ∧
    ((analyzeVideo wParseGood wOutcomesRetry [] 0 (String.toList "video/mp4") false
        (some "h")).result = Except.ok (Json.arr [goodItem]) ∧
      ∀ parse2 outcomes2 vt2,
        (analyzeVideo parse2 outcomes2
            (analyzeVideo wParseGood wOutcomesRetry [] 0 (String.toList "video/mp4") false
              (some "h")).cache
            0 vt2 false (some "h")).result = Except.ok (Json.arr [goodItem]) ∧
        (analyzeVideo parse2 outcomes2
            (analyzeVideo wParseGood wOutcomesRetry [] 0 (String.toList "video/mp4") false
              (some "h")).cache
            0 vt2 false (some "h")).wrapperInvoked = false ∧
        (analyzeVideo parse2 outcomes2
            (analyzeVideo wParseGood wOutcomesRetry [] 0 (String.toList "video/mp4") false
              (some "h")).cache
            0 vt2 false (some "h")).modelCalls = 0) :=
  ⟨rfl, rfl, rfl, rfl, by decide,
    analyze_cache_write_then_hit wParseGood wOutcomesRetry [] 0 0
      (String.toList "video/mp4") false "h" wText 2 [2000] [goodItem]
      rfl rfl rfl rfl (by decide)⟩

theorem trimL_eq_self_of_head (s : List Char)
    (h : ∀ c, s.head? = some c → jsWhitespaceB c = false) : trimL s = s := by
  cases s with
  | nil => rfl
  | cons a t => simp [trimL, List.dropWhile_cons, h a rfl]

theorem trimR_eq_self_of_getLast (s : List Char)
    (h : ∀ c, s.getLast? = some c → jsWhitespaceB c = false) : trimR s = s := by
  have hhead : ∀ c, s.reverse.head? = some c → jsWhitespaceB c = false := by
    intro c hc
    exact h c (by rwa [List.head?_reverse] at hc)
  have hrev := trimL_eq_self_of_head s.reverse hhead
  simp only [trimL] at hrev
  simp [trimR, hrev]

theorem trimL_head_not_ws (s : List Char) :
    ∀ c, (trimL s).head? = some c → jsWhitespaceB c = false := by
  induction s with
  | nil => intro c hc; simp [trimL] at hc
  | cons a t ih =>
    intro c hc
    by_cases hp : jsWhitespaceB a
    · exact ih c (by simpa [trimL, List.dropWhile_cons, hp] using hc)
    · have ha : a = c := by simpa [trimL, List.dropWhile_cons, hp] using hc
      subst ha
      simpa using hp

theorem dropWhile_append_left (p : Char → Bool) (l₁ l₂ : List Char)
    (h : l₁.dropWhile p ≠ []) :
    (l₁ ++ l₂).dropWhile p = l₁.dropWhile p ++ l₂ := by
  induction l₁ with
  | nil => exact absurd rfl h
  | cons a t ih =>
    by_cases hp : p a
    · have h2 : t.dropWhile p ≠ [] := by simpa [List.dropWhile_cons, hp] using h
      simp [List.dropWhile_cons, hp, ih h2]
    · simp [List.dropWhile_cons, hp]

theorem trimR_append_ws (x : List Char) (c : Char) (hc : jsWhitespaceB c = true) :
    trimR (x ++ [c]) = trimR x := by
  simp [trimR, List.reverse_append, List.dropWhile_cons, hc]

theorem leadsWith_append_self (l t : List Char) : leadsWith l (l ++ t) = true := by
  induction l with
  | nil => rfl
  | cons a as ih => simp [leadsWith, ih]

theorem dropTicksSuffix_of_head_reverse (s : List Char) (a : Char) (t : List Char)
    (hrev : s.reverse = a :: t) (ha : (a == btick) = false) :
    dropTicksSuffix s = s := by
  unfold dropTicksSuffix
  rw [hrev]
  rcases t with _ | ⟨b, t2⟩
  · rfl
  · rcases t2 with _ | ⟨c, t3⟩
    · rfl
    · simp [ha]

theorem dropTicksSuffix_append_ticks (x : List Char) :
    dropTicksSuffix (x ++ '\n' :: btick :: btick :: btick :: []) = x ++ ['\n'] := by
  unfold dropTicksSuffix
  have hrev : (x ++ '\n' :: btick :: btick :: btick :: []).reverse
      = btick :: btick :: btick :: '\n' :: x.reverse := by
    simp
  rw [hrev]
  simp

/-- C7: processing a response wrapped in a ```json code fence yields the same
result as processing the unwrapped response, for every response whose
trimmed text is a JSON array shape (it starts with a bracket and ends with a
bracket). -/
theorem fenced_equals_unfenced (parse : List Char → Option Json) (s : List Char)
    (h1 : (jsTrim s).head? = some '[') (h2 : (jsTrim s).getLast? = some ']') :
    processText parse (wrapJson s) = processText parse s := by
  have hne : jsTrim s ≠ [] := by intro hh; rw [hh] at h1; simp at h1
  have htl : trimL s ≠ [] := by
    intro hh
    apply hne
    simp [jsTrim, hh, trimR]
  have hcl1 : ∀ c, (jsTrim s).head? = some c → jsWhitespaceB c = false := by
    intro c hc
    rw [h1] at hc
    rw [(Option.some.inj hc).symm]
    rfl
  have hcl2 : ∀ c, (jsTrim s).getLast? = some c → jsWhitespaceB c = false := by
    intro c hc
    rw [h2] at hc
    rw [(Option.some.inj hc).symm]
    rfl
  have hsf : stripFence (jsTrim s) = jsTrim s := by
    have hlw : leadsWith fenceOpen (jsTrim s) = false := by
      rcases hx : jsTrim s with _ | ⟨a, t⟩
      · exact absurd hx hne
      · have ha : a = '[' := by rw [hx] at h1; simpa using h1
        subst ha
        have hb : (btick == '[') = false := rfl
        simp [leadsWith, fenceOpen, hb]
    have hdt : dropTicksSuffix (jsTrim s) = jsTrim s := by
      have hrh : (jsTrim s).reverse.head? = some ']' := by
        rw [List.head?_reverse]; exact h2
      rcases hx : (jsTrim s).reverse with _ | ⟨a, t⟩
      · rw [hx] at hrh; simp at hrh
      · have ha : a = ']' := by rw [hx] at hrh; simpa using hrh
        subst ha
        exact dropTicksSuffix_of_head_reverse _ _ _ hx rfl
    simp [stripFence, hlw, hdt]
  have hjj : jsTrim (jsTrim s) = jsTrim s := by
    have hL : trimL (jsTrim s) = jsTrim s := trimL_eq_self_of_head _ hcl1
    have hR : trimR (jsTrim s) = jsTrim s := trimR_eq_self_of_getLast _ hcl2
    calc jsTrim (jsTrim s) = trimR (trimL (jsTrim s)) := rfl
      _ = trimR (jsTrim s) := by rw [hL]
      _ = jsTrim s := hR
  have hclean_un : cleanedOf s = jsTrim s := by
    simp only [cleanedOf]
    rw [hsf, hjj]
  have hwrap_trim : jsTrim (wrapJson s) = wrapJson s := by
    have hhead : ∀ c, (wrapJson s).head? = some c → jsWhitespaceB c = false := by
      intro c hc
      have hwh : (wrapJson s).head? = some btick := rfl
      rw [hwh] at hc
      rw [(Option.some.inj hc).symm]
      rfl
    have hgl : (wrapJson s).getLast? = some btick := by
      rw [← List.head?_reverse]
      simp [wrapJson, fenceOpen]
    have hlast : ∀ c, (wrapJson s).getLast? = some c → jsWhitespaceB c = false := by
      intro c hc
      rw [hgl] at hc
      rw [(Option.some.inj hc).symm]
      rfl
    calc jsTrim (wrapJson s) = trimR (trimL (wrapJson s)) := rfl
      _ = trimR (wrapJson s) := by rw [trimL_eq_self_of_head _ hhead]
      _ = wrapJson s := trimR_eq_self_of_getLast _ hlast
  have hstrip_wrap : stripFence (wrapJson s) = trimL s ++ ['\n'] := by
    have hlw : leadsWith fenceOpen (wrapJson s) = true :=
      leadsWith_append_self fenceOpen ('\n' :: (s ++ '\n' :: btick :: btick :: btick :: []))
    have hdrop : (wrapJson s).drop fenceOpen.length
        = '\n' :: (s ++ '\n' :: btick :: btick :: btick :: []) :=
      List.drop_left fenceOpen ('\n' :: (s ++ '\n' :: btick :: btick :: btick :: []))
    have hdw : ('\n' :: (s ++ '\n' :: btick :: btick :: btick :: [])).dropWhile jsWhitespaceB
        = trimL s ++ '\n' :: btick :: btick :: btick :: [] := by
      rw [List.dropWhile_cons_of_pos (by rfl : jsWhitespaceB '\n' = true)]
      exact dropWhile_append_left _ s _ htl
    simp only [stripFence, hlw, if_true]
    rw [hdrop, hdw]
    exact dropTicksSuffix_append_ticks (trimL s)
  have hclean_wrap : cleanedOf (wrapJson s) = jsTrim s := by
    simp only [cleanedOf]
    rw [hwrap_trim, hstrip_wrap]
    have hL2 : trimL (trimL s ++ ['\n']) = trimL s ++ ['\n'] := by
      rcases hx : trimL s with _ | ⟨a, t⟩
      · exact absurd hx htl
      · have ha : jsWhitespaceB a = false := trimL_head_not_ws s a (by rw [hx]; rfl)
        simp [trimL, List.dropWhile_cons, ha]
    calc jsTrim (trimL s ++ ['\n']) = trimR (trimL (trimL s ++ ['\n'])) := rfl
      _ = trimR (trimL s ++ ['\n']) := by rw [hL2]
      _ = trimR (trimL s) := trimR_append_ws (trimL s) '\n' rfl
      _ = jsTrim s := rfl
  simp only [processText]
  rw [hclean_wrap, hclean_un]

theorem fenced_equals_unfenced_witness :
    ((jsTrim (String.toList "[]")).head? = some '[') ∧
    ((jsTrim (String.toList "[]")).getLast? = some ']') ∧
    processText wParseNone (wrapJson (String.toList "[]"))
      = processText wParseNone (String.toList "[]") :=
  ⟨rfl, rfl, fenced_equals_unfenced wParseNone (String.toList "[]") rfl rfl⟩
